import Mathlib

/-!
Verification of the poll relay and vote-tracking engine (src/modules/polls.rs,
src/db.rs, src/models.rs) against its natural-language specification.

The Rust code is shallowly embedded: database tables become lists of row
structures, the transactional bodies become pure functions over those lists,
remote Telegram calls become an explicit record of call results plus an action
trace, and fallible operations return Except.  Machine integers (i64 user ids,
chat ids, message ids) are modelled as Int; none of the embedded code performs
arithmetic that could overflow.
-/

namespace Botka

/-- Rust's Vec::sort on a vector of i64: the ascending stable sort.  On a
linearly ordered type the sorted permutation of a list is unique, so any
sorting algorithm gives the same function; we use insertion sort. -/
def rustSort (l : List Int) : List Int :=
  l.insertionSort (fun a b => a ≤ b)

/-- Rust's Vec::dedup: removes consecutive repeated elements, keeping the
first element of each run. -/
def rustDedup : List Int → List Int
  | [] => []
  | a :: l => rustDedupRun a l
where
  /-- Dedups a run whose last kept element is a. -/
  rustDedupRun (a : Int) : List Int → List Int
    | [] => [a]
    | b :: l => if a = b then rustDedupRun a l else a :: rustDedupRun b l

/-- The canonicalisation performed by handle_poll_answer before persisting:
voted_users.sort() followed by voted_users.dedup(). -/
def sortDedup (l : List Int) : List Int :=
  rustDedup (rustSort l)

theorem mem_rustDedupRun {x : Int} :
    ∀ {l : List Int} {a : Int}, x ∈ rustDedup.rustDedupRun a l ↔ x = a ∨ x ∈ l := by
  intro l
  induction l with
  | nil => intro a; simp [rustDedup.rustDedupRun]
  | cons b l ih =>
    intro a
    rw [rustDedup.rustDedupRun]
    by_cases hab : a = b
    · subst hab
      rw [if_pos rfl, ih]
      simp only [List.mem_cons]
      tauto
    · rw [if_neg hab]
      simp only [List.mem_cons, ih]

theorem mem_rustDedup {a : Int} : ∀ {l : List Int}, a ∈ rustDedup l ↔ a ∈ l := by
  intro l
  cases l with
  | nil => simp [rustDedup]
  | cons b l =>
    rw [rustDedup]
    rw [mem_rustDedupRun]
    simp only [List.mem_cons]

theorem rustDedupRun_sorted_lt :
    ∀ {l : List Int} {a : Int}, (a :: l).Sorted (· ≤ ·) →
      (rustDedup.rustDedupRun a l).Sorted (· < ·) := by
  intro l
  induction l with
  | nil => intro a _; simp [rustDedup.rustDedupRun]
  | cons b l ih =>
    intro a h
    rw [List.sorted_cons] at h
    rw [rustDedup.rustDedupRun]
    by_cases hab : a = b
    · subst hab
      rw [if_pos rfl]
      apply ih
      rw [List.sorted_cons]
      exact ⟨fun c hc => (List.sorted_cons.mp h.2).1 c hc, (List.sorted_cons.mp h.2).2⟩
    · rw [if_neg hab]
      rw [List.sorted_cons]
      refine ⟨?_, ih h.2⟩
      intro c hc
      rw [mem_rustDedupRun] at hc
      have hab' : a < b :=
        lt_of_le_of_ne (h.1 b (List.mem_cons_self _ _)) hab
      rcases hc with hc | hc
      · exact hc ▸ hab'
      · exact lt_of_lt_of_le hab' ((List.sorted_cons.mp h.2).1 c hc)

theorem rustDedup_sorted_lt :
    ∀ {l : List Int}, l.Sorted (· ≤ ·) → (rustDedup l).Sorted (· < ·) := by
  intro l h
  cases l with
  | nil => simp [rustDedup]
  | cons a l =>
    rw [rustDedup]
    exact rustDedupRun_sorted_lt h

/-- Two strictly ascending integer lists with the same members are equal. -/
theorem sorted_lt_eq_of_mem_iff :
    ∀ {l₁ l₂ : List Int}, l₁.Sorted (· < ·) → l₂.Sorted (· < ·) →
      (∀ a, a ∈ l₁ ↔ a ∈ l₂) → l₁ = l₂ := by
  intro l₁
  induction l₁ with
  | nil =>
    intro l₂ _ _ hmem
    cases l₂ with
    | nil => rfl
    | cons b t => exact absurd ((hmem b).mpr (List.mem_cons_self _ _)) (by simp)
  | cons a t₁ ih =>
    intro l₂ h₁ h₂ hmem
    cases l₂ with
    | nil => exact absurd ((hmem a).mp (List.mem_cons_self _ _)) (by simp)
    | cons b t₂ =>
      have hab : a = b := by
        rcases List.mem_cons.mp ((hmem a).mp (List.mem_cons_self _ _)) with h | h
        · exact h
        · rcases List.mem_cons.mp ((hmem b).mpr (List.mem_cons_self _ _)) with h' | h'
          · exact h'.symm
          · have hba : b < a := (List.sorted_cons.mp h₂).1 a h
            have hab : a < b := (List.sorted_cons.mp h₁).1 b h'
            exact absurd (lt_trans hab hba) (lt_irrefl a)
      subst hab
      have htail : ∀ x, x ∈ t₁ ↔ x ∈ t₂ := by
        intro x
        constructor
        · intro hx
          have hax : a < x := (List.sorted_cons.mp h₁).1 x hx
          rcases List.mem_cons.mp ((hmem x).mp (List.mem_cons_of_mem _ hx)) with h | h
          · exact absurd (h ▸ hax) (lt_irrefl a)
          · exact h
        · intro hx
          have hax : a < x := (List.sorted_cons.mp h₂).1 x hx
          rcases List.mem_cons.mp ((hmem x).mpr (List.mem_cons_of_mem _ hx)) with h | h
          · exact absurd (h ▸ hax) (lt_irrefl a)
          · exact h
      rw [ih (List.sorted_cons.mp h₁).2 (List.sorted_cons.mp h₂).2 htail]

/-- sort-then-dedup produces the canonical ascending enumeration of the
list's set of members. -/
theorem sortDedup_eq_sort_toFinset (l : List Int) :
    sortDedup l = Finset.sort (· ≤ ·) l.toFinset := by
  apply sorted_lt_eq_of_mem_iff
  · exact rustDedup_sorted_lt (List.sorted_insertionSort _ l)
  · exact Finset.sort_sorted_lt _
  · intro a
    rw [sortDedup, mem_rustDedup, rustSort,
      (List.perm_insertionSort _ l).mem_iff, Finset.mem_sort, List.mem_toFinset]

theorem sortDedup_toFinset (l : List Int) :
    (sortDedup l).toFinset = l.toFinset := by
  rw [sortDedup_eq_sort_toFinset, Finset.sort_toFinset]

theorem sortDedup_sorted_lt (l : List Int) : (sortDedup l).Sorted (· < ·) := by
  rw [sortDedup_eq_sort_toFinset]
  exact Finset.sort_sorted_lt _

theorem sortDedup_congr {l₁ l₂ : List Int} (h : l₁.toFinset = l₂.toFinset) :
    sortDedup l₁ = sortDedup l₂ := by
  rw [sortDedup_eq_sort_toFinset, sortDedup_eq_sort_toFinset, h]

theorem sortDedup_idem (l : List Int) : sortDedup (sortDedup l) = sortDedup l := by
  apply sortDedup_congr
  exact sortDedup_toFinset l

/-! ## Vote-answer events and the roster update of handle_poll_answer -/

/-- A Telegram vote-answer event (teloxide PollAnswer): the poll id, the id of
the voting user (poll_answer.user.id), and the chosen option indices; an empty
option_ids means the user retracted their vote. -/
structure PollAnswer where
  poll_id : String
  user_id : Int
  option_ids : List Nat
deriving DecidableEq, Repr

/-- The roster update performed inside handle_poll_answer's transaction
(polls.rs lines 189-196): on an empty option_ids the user id is retained out
of the roster, otherwise it is pushed; the roster is then sorted and
deduplicated. -/
def applyVoteRoster (voted_users : List Int) (poll_answer : PollAnswer) : List Int :=
  let vu :=
    if poll_answer.option_ids.isEmpty then
      voted_users.filter (fun u => u ≠ poll_answer.user_id)
    else
      voted_users ++ [poll_answer.user_id]
  sortDedup vu

/-- Written from the specification's words, for comparison with the code
(spec §8: fold "insert on non-empty options, remove on empty options"): the
spec-side fold step on the roster viewed as a set. -/
def specVoteStep (s : Finset Int) (poll_answer : PollAnswer) : Finset Int :=
  if poll_answer.option_ids.isEmpty then s.erase poll_answer.user_id
  else insert poll_answer.user_id s

theorem applyVoteRoster_toFinset (r : List Int) (pa : PollAnswer) :
    (applyVoteRoster r pa).toFinset = specVoteStep r.toFinset pa := by
  rw [applyVoteRoster, specVoteStep]
  by_cases h : pa.option_ids.isEmpty
  · rw [if_pos h, if_pos h, sortDedup_toFinset]
    ext a
    simp only [List.mem_toFinset, List.mem_filter, Finset.mem_erase,
      decide_eq_true_eq]
    tauto
  · rw [if_neg h, if_neg h, sortDedup_toFinset]
    ext a
    simp only [List.mem_toFinset, List.mem_append, List.mem_singleton,
      Finset.mem_insert]
    tauto

theorem applyVoteRoster_canonical (r : List Int) (pa : PollAnswer) :
    sortDedup (applyVoteRoster r pa) = applyVoteRoster r pa := by
  rw [applyVoteRoster]
  exact sortDedup_idem _

/-- The roster written back by handle_poll_answer is canonical: it is the
ascending enumeration of the set reached by the spec-side step. -/
theorem applyVoteRoster_eq_sort (r : List Int) (pa : PollAnswer) :
    applyVoteRoster r pa = Finset.sort (· ≤ ·) (specVoteStep r.toFinset pa) := by
  rw [← applyVoteRoster_toFinset, ← sortDedup_eq_sort_toFinset,
    applyVoteRoster_canonical]

/-- The rosters a TrackedPoll row can hold: creation (intercept_new_poll)
writes the empty roster, and each vote-answer event rewrites it through
applyVoteRoster. -/
inductive RosterReachable : List Int → Prop
  | creation : RosterReachable []
  | vote (r : List Int) (pa : PollAnswer) :
      RosterReachable r → RosterReachable (applyVoteRoster r pa)

theorem RosterReachable.canonical {r : List Int} (h : RosterReachable r) :
    sortDedup r = r := by
  induction h with
  | creation => rfl
  | vote r pa _ _ => exact applyVoteRoster_canonical r pa

theorem foldl_applyVoteRoster (evs : List PollAnswer) :
    ∀ (init : List Int), sortDedup init = init →
      evs.foldl applyVoteRoster init
        = Finset.sort (· ≤ ·) (evs.foldl specVoteStep init.toFinset) := by
  induction evs with
  | nil =>
    intro init h
    rw [List.foldl_nil, List.foldl_nil, ← sortDedup_eq_sort_toFinset, h]
  | cons e evs ih =>
    intro init _
    rw [List.foldl_cons, List.foldl_cons,
      ih (applyVoteRoster init e) (applyVoteRoster_canonical init e)]
    rw [applyVoteRoster_toFinset]

/-! ## Persistence layer: serde_json blobs, tracked_polls, options -/

/-- A stored JSON text, abstracted over what it decodes to.  This models both
the Sqlizer column wrapper (utils.rs, a serde_json round-tripping newtype used
for the voted_users column) and the value column of the options table: a blob
either encodes a value of the expected type, or is malformed for that type,
or is the empty string (String::default(), which ConfigOptionDef::get decodes
when the row is absent; the empty string is not valid JSON, so decoding it
fails for every target type). -/
inductive Blob (α : Type) where
  | enc (v : α)
  | malformed
  | empty
deriving DecidableEq, Repr

/-- Modelled from the spec (§4.1 opaque value codec; the serde_json calls live
in utils.rs and the serde_json crate, outside src/): decoding a stored blob
yields the encoded value or fails with a decode error. -/
def serde_from_str {α : Type} : Blob α → Except String α
  | .enc v => Except.ok v
  | .malformed => Except.error "malformed JSON"
  | .empty => Except.error "EOF while parsing a value"

/-- One row of the tracked_polls table as stored (models::TrackedPoll with the
voted_users column still encoded). -/
structure TrackedPollRow where
  tg_poll_id : String
  creator_id : Int
  info_chat_id : Int
  info_message_id : Int
  voted_users : Blob (List Int)
deriving DecidableEq, Repr

/-- models::TrackedPoll as materialised by a successful query: the
voted_users column decoded to a vector of user ids. -/
structure TrackedPoll where
  tg_poll_id : String
  creator_id : Int
  info_chat_id : Int
  info_message_id : Int
  voted_users : List Int
deriving DecidableEq, Repr

/-- A database error: a row column failed to deserialize, or an insert hit a
primary-key violation. -/
inductive DbError where
  | deserialization (msg : String)
  | uniqueViolation
deriving DecidableEq, Repr

/-- db_find_poll (polls.rs lines 241-249): first row of tracked_polls whose
tg_poll_id matches, materialised; absent rows give none, and a voted_users
column that fails to decode surfaces as a DeserializationError (the decode
happens while diesel materialises the row, and the question mark operator at
each call site propagates it). -/
def db_find_poll (db : List TrackedPollRow) (poll_id : String) :
    Except DbError (Option TrackedPoll) :=
  match db.find? (fun r => r.tg_poll_id = poll_id) with
  | none => Except.ok none
  | some r =>
    match serde_from_str r.voted_users with
    | Except.ok vu =>
      Except.ok (some ⟨r.tg_poll_id, r.creator_id, r.info_chat_id,
        r.info_message_id, vu⟩)
    | Except.error e => Except.error (DbError.deserialization e)

/-- models::TgUser: a cached Telegram profile. -/
structure TgUser where
  id : Int
  username : Option String
  first_name : String
  last_name : Option String
deriving DecidableEq, Repr

/-- db_find_non_voters (polls.rs lines 251-266): residents whose tg_id is not
among voted_users, left-joined to their cached profile. -/
def db_find_non_voters (residents : List Int) (tg_users : List TgUser)
    (voted_users : List Int) : List (Int × Option TgUser) :=
  (residents.filter (fun t => !voted_users.contains t)).map
    (fun t => (t, tg_users.find? (fun u => u.id = t)))

/-- The transaction body of handle_poll_answer (polls.rs lines 183-214): look
the poll up (unknown polls give none and no write), rebuild the roster with
applyVoteRoster, write it back to every row matching the poll id, and return
the info-message location, the non-voter list recomputed from the new roster,
and the roster size. -/
def handle_poll_answer_tx (db : List TrackedPollRow) (residents : List Int)
    (tg_users : List TgUser) (poll_answer : PollAnswer) :
    Except DbError
      (List TrackedPollRow × Option (Int × Int × List (Int × Option TgUser) × Nat)) :=
  match db_find_poll db poll_answer.poll_id with
  | Except.error e => Except.error e
  | Except.ok none => Except.ok (db, none)
  | Except.ok (some db_poll) =>
    let voted_users := applyVoteRoster db_poll.voted_users poll_answer
    let db2 := db.map (fun r =>
      if r.tg_poll_id = poll_answer.poll_id then
        { r with voted_users := Blob.enc voted_users }
      else r)
    let non_voters := db_find_non_voters residents tg_users voted_users
    Except.ok (db2, some (db_poll.info_chat_id, db_poll.info_message_id,
      non_voters, voted_users.length))

/-- db.rs: a typed key for the options table (ConfigOptionDef). -/
structure ConfigOptionDef (α : Type) where
  key_name : String
deriving DecidableEq, Repr

/-- models::ConfigOption: one row of the options table, its value a stored
JSON string read back at type α. -/
structure ConfigOptionRow (α : Type) where
  name : String
  value : Blob α
deriving DecidableEq, Repr

/-- ConfigOptionDef::get (db.rs lines 39-59): look the row up by key; decode
value.unwrap_or_default() (the empty string when the row is absent); a decode
failure is logged and swallowed, producing Ok(None). -/
def ConfigOptionDef.get {α : Type} (self : ConfigOptionDef α)
    (table : List (ConfigOptionRow α)) : Except DbError (Option α) :=
  let value : Option (Blob α) :=
    (table.find? (fun r => r.name = self.key_name)).map (fun r => r.value)
  match serde_from_str (value.getD Blob.empty) with
  | Except.ok v => Except.ok (some v)
  | Except.error _e => Except.ok none

/-! ## Report rendering -/

/-- Modelled from the spec: format_users2 is defined in src/common.rs, which
is not among the sources; the spec's rendering rule says the status report
lists a mention for each non-voter that has a public handle, silently
omitting those without one.  Like the Rust function it appends to the text
accumulated so far. -/
def format_users2 (text : String) (users : List (Int × Option TgUser)) : String :=
  users.foldl (fun t p =>
    match p.2 with
    | some u =>
      match u.username with
      | some name => t ++ "@" ++ name ++ " "
      | none => t
    | none => t) text

/-- The status-report text built by handle_poll_answer (polls.rs lines
222-231) after a successful roster update. -/
def render_poll_answer_report (non_voters : List (Int × Option TgUser))
    (total_voters : Nat) : String :=
  if non_voters.isEmpty then "Everyone voted!"
  else
    let text := "Voted " ++ toString total_voters ++ " users, "
    let text := text ++ "Pending vote " ++ toString non_voters.length ++ " users: "
    let text := format_users2 text non_voters
    text ++ ".\n"

/-- The reply text built by hande_poll_forward (polls.rs lines 155-171) from
the transaction's result: None for an unknown poll; otherwise "Everyone
voted!" when nobody is pending, else one " @username" per non-voter whose
cached profile carries a username (flat_map over the profile, then over the
username). -/
def hande_poll_forward_text
    (poll_results : Option (List (Int × Option TgUser))) : String :=
  match poll_results with
  | some non_voters =>
    if non_voters.isEmpty then "Everyone voted!"
    else
      ((non_voters.filterMap (fun p => p.2)).filterMap
          (fun u => u.username)).foldl (fun text u => text ++ " @" ++ u) ""
  | none => "Unknown poll"

/-! ## Event classification (filter_polls) -/

/-- teloxide PollType: regular or quiz. -/
inductive PollType where
  | regular
  | quiz
deriving DecidableEq, Repr

/-- The fields of a teloxide Poll object that the relay consults. -/
structure PollObj where
  id : String
  question : String
  options : List String
  is_anonymous : Bool
  allows_multiple_answers : Bool
  close_date : Option Int
  total_voter_count : Nat
  is_closed : Bool
  poll_type : PollType
deriving DecidableEq, Repr

/-- The origin recorded in a message's forward metadata: a user (teloxide
ForwardedFrom::User, the only shape filter_polls matches) or anything else
(a chat or a bare sender name). -/
inductive ForwardOrigin where
  | user (id : Int)
  | other
deriving DecidableEq, Repr

/-- The parts of an incoming Telegram message filter_polls inspects: the poll
carried in its media kind (if any), its forward metadata, whether its chat is
a private chat, and its sender id (absent for e.g. channel posts). -/
structure MsgInfo where
  poll : Option PollObj
  forward : Option ForwardOrigin
  chat_is_private : Bool
  from_user : Option Int
deriving DecidableEq, Repr

/-- polls.rs PollKind: the classification result dispatched to the handlers. -/
inductive PollKind where
  | new (poll : PollObj)
  | forward (poll_id : String)
deriving DecidableEq, Repr

/-- filter_polls (polls.rs lines 31-64).  user_role and Role live in
src/common.rs, which is not among the sources; following the spec, the
authorization collaborator is consumed as the yes/no decision is_resident
(whether the sender's resolved tier is at least Resident).  A message without
a poll is ignored; a non-forwarded poll that has zero votes, is open,
non-anonymous and regular, sent by a resident, is a new poll; a poll
forwarded from the bot itself in a private chat by a resident is a forward
reference; everything else (including a message with no sender, where the
question mark on msg.from() aborts the match) is ignored. -/
def filter_polls (me : Int) (is_resident : Int → Bool) (msg : MsgInfo) :
    Option PollKind :=
  match msg.poll with
  | none => none
  | some poll =>
    match msg.forward with
    | none =>
      if poll.total_voter_count = 0 && !poll.is_closed && !poll.is_anonymous
          && poll.poll_type == PollType.regular then
        match msg.from_user with
        | none => none
        | some u => if is_resident u then some (PollKind.new poll) else none
      else none
    | some (ForwardOrigin.user id) =>
      if id == me && msg.chat_is_private then
        match msg.from_user with
        | none => none
        | some u => if is_resident u then some (PollKind.forward poll.id) else none
      else none
    | some ForwardOrigin.other => none

/-! ## The relay transition of intercept_new_poll -/

/-- An error returned by a Telegram API call. -/
structure TgError where
  msg : String
deriving DecidableEq, Repr

/-- The fields of a freshly sent message that intercept_new_poll reads: the
chat it landed in, its message id, and the id of the poll it carries when its
media kind is a poll. -/
structure SentMessage where
  chat_id : Int
  id : Int
  poll_id : Option String
deriving DecidableEq, Repr

/-- The parts of the intercepted message used by intercept_new_poll. -/
structure MessageCtx where
  chat_id : Int
  id : Int
  from_id : Int
  thread_id : Option Int
  reply_to_id : Option Int
deriving DecidableEq, Repr

/-- The observable requests intercept_new_poll issues, in order. -/
inductive Action where
  | send_poll (chat : Int) (question : String) (options : List String)
      (is_anonymous : Bool) (allows_multiple_answers : Bool)
      (close_date : Option Int) (thread_id : Option Int)
      (reply_to : Option Int)
  | delete_message (chat : Int) (message : Int)
  | send_reply (chat : Int) (reply_to : Int) (text : String)
  | insert_tracked_poll (row : TrackedPollRow)
deriving DecidableEq, Repr

/-- The results handed back by the three suspension points of
intercept_new_poll: sending the replacement poll, deleting the original
message, and sending the "Poll info" reply. -/
structure InterceptCalls where
  send_poll_result : Except TgError SentMessage
  delete_message_result : Except TgError Unit
  reply_message_result : Except TgError SentMessage
deriving Repr

/-- An error propagated out of intercept_new_poll: a Telegram transport error
or a database error from the insert. -/
inductive InterceptError where
  | tg (e : TgError)
  | db (e : DbError)
deriving DecidableEq, Repr

/-- intercept_new_poll (polls.rs lines 80-138), embedded as a function of the
remote-call results: it returns the ordered trace of requests issued, the
tracked_polls table after the handler, and its outcome.  The replacement poll
is sent first; if the sent message somehow carries no poll the original is
deleted (errors swallowed) and the handler aborts with Ok.  Then the original
is deleted; if that fails the just-sent replacement poll is deleted (errors
swallowed) and the handler aborts with Ok, touching no table.  Then the "Poll
info" reply is sent (failure propagates), and finally the TrackedPoll row is
inserted with the replacement poll's id, the original sender as creator, the
reply's location, and an empty encoded roster. -/
def intercept_new_poll (calls : InterceptCalls) (msg : MessageCtx)
    (poll : PollObj) (db : List TrackedPollRow) :
    List Action × List TrackedPollRow × Except InterceptError Unit :=
  let sendAct := Action.send_poll msg.chat_id poll.question poll.options
    poll.is_anonymous poll.allows_multiple_answers poll.close_date
    msg.thread_id msg.reply_to_id
  match calls.send_poll_result with
  | Except.error e => ([sendAct], db, Except.error (InterceptError.tg e))
  | Except.ok new_poll =>
    match new_poll.poll_id with
    | none =>
      ([sendAct, Action.delete_message msg.chat_id msg.id], db, Except.ok ())
    | some poll_id =>
      match calls.delete_message_result with
      | Except.error _e =>
        ([sendAct, Action.delete_message msg.chat_id msg.id,
          Action.delete_message msg.chat_id new_poll.id], db, Except.ok ())
      | Except.ok _ =>
        match calls.reply_message_result with
        | Except.error e =>
          ([sendAct, Action.delete_message msg.chat_id msg.id,
            Action.send_reply msg.chat_id new_poll.id "Poll info"], db,
            Except.error (InterceptError.tg e))
        | Except.ok poll_info =>
          let row : TrackedPollRow :=
            { tg_poll_id := poll_id, creator_id := msg.from_id,
              info_chat_id := poll_info.chat_id,
              info_message_id := poll_info.id,
              voted_users := Blob.enc [] }
          let trace := [sendAct, Action.delete_message msg.chat_id msg.id,
            Action.send_reply msg.chat_id new_poll.id "Poll info",
            Action.insert_tracked_poll row]
          if db.any (fun r => r.tg_poll_id = poll_id) then
            (trace, db, Except.error (InterceptError.db DbError.uniqueViolation))
          else
            (trace, db ++ [row], Except.ok ())

/-! ## Helper lemmas for the claims -/

theorem specVoteStep_idem (s : Finset Int) (pa : PollAnswer) :
    specVoteStep (specVoteStep s pa) pa = specVoteStep s pa := by
  rw [specVoteStep, specVoteStep]
  by_cases h : pa.option_ids.isEmpty
  · rw [if_pos h, if_pos h, Finset.erase_idem]
  · rw [if_neg h, if_neg h, Finset.insert_idem]

theorem forall₂_map_self {α : Type} (P : α → α → Prop) (f : α → α)
    (h : ∀ a, P a (f a)) : ∀ l : List α, List.Forall₂ P l (l.map f)
  | [] => List.Forall₂.nil
  | a :: l => List.Forall₂.cons (h a) (forall₂_map_self P f h l)

theorem format_users2_shift (users : List (Int × Option TgUser)) :
    ∀ t : String, format_users2 t users = t ++ format_users2 "" users := by
  induction users with
  | nil =>
    intro t
    simp only [format_users2, List.foldl_nil, String.append_empty]
  | cons p users ih =>
    intro t
    simp only [format_users2, List.foldl_cons] at ih ⊢
    rcases p with ⟨i, u⟩
    cases u with
    | none => exact ih t
    | some u =>
      cases hn : u.username with
      | none =>
        simp only [hn]
        exact ih t
      | some name =>
        simp only [hn]
        rw [ih (t ++ "@" ++ name ++ " "), ih ("" ++ "@" ++ name ++ " ")]
        simp [String.append_assoc, String.empty_append]

theorem foldl_mention_shift (names : List String) :
    ∀ t : String, names.foldl (fun text u => text ++ " @" ++ u) t
      = t ++ names.foldr (fun u acc => " @" ++ u ++ acc) "" := by
  induction names with
  | nil =>
    intro t
    simp only [List.foldl_nil, List.foldr_nil, String.append_empty]
  | cons n names ih =>
    intro t
    simp only [List.foldl_cons, List.foldr_cons]
    rw [ih (t ++ " @" ++ n)]
    simp [String.append_assoc]

/-! ## The claims -/

/-- C1: for every tracked poll (its roster reachable from the empty roster
written at creation) and every finite sequence of vote-answer events applied
to it, the final voted_users roster equals the fold of "insert the user id on
non-empty option_ids, remove it on empty option_ids" over the initial roster,
sorted and deduplicated (the ascending enumeration of the folded set); and
applying the same vote-answer event twice in a row yields the same roster as
applying it once. -/
theorem C1_fold_and_idempotence (init : List Int) (evs : List PollAnswer)
    (h : RosterReachable init) :
    evs.foldl applyVoteRoster init
        = Finset.sort (· ≤ ·) (evs.foldl specVoteStep init.toFinset)
    ∧ ∀ (r : List Int) (pa : PollAnswer),
        applyVoteRoster (applyVoteRoster r pa) pa = applyVoteRoster r pa := by
  constructor
  · exact foldl_applyVoteRoster evs init h.canonical
  · intro r pa
    rw [applyVoteRoster_eq_sort (applyVoteRoster r pa) pa,
      applyVoteRoster_toFinset, specVoteStep_idem, ← applyVoteRoster_eq_sort]

theorem C1_fold_and_idempotence_witness :
    List.foldl applyVoteRoster []
        [⟨"p", 5, [0]⟩, ⟨"p", 3, [1]⟩, ⟨"p", 5, []⟩]
      = Finset.sort (· ≤ ·)
          (List.foldl specVoteStep (([] : List Int)).toFinset
            [⟨"p", 5, [0]⟩, ⟨"p", 3, [1]⟩, ⟨"p", 5, []⟩]) :=
  (C1_fold_and_idempotence [] _ RosterReachable.creation).1

/-- C2: every voted_users roster reachable by creation followed by any
vote-answer updates is strictly ascending and duplicate-free, and is a
fixpoint of the sort-and-deduplicate canonicalisation performed on every
write (creation, the base case of RosterReachable, writes the empty
roster). -/
theorem C2_roster_invariant (r : List Int) (h : RosterReachable r) :
    r.Sorted (· < ·) ∧ r.Nodup ∧ sortDedup r = r := by
  have hs : r.Sorted (· < ·) := by
    rw [← h.canonical]
    exact sortDedup_sorted_lt r
  exact ⟨hs, hs.nodup, h.canonical⟩

theorem C2_roster_invariant_witness :
    (applyVoteRoster [] ⟨"p", 5, [0]⟩).Sorted (· < ·)
    ∧ (applyVoteRoster [] ⟨"p", 5, [0]⟩).Nodup
    ∧ sortDedup (applyVoteRoster [] ⟨"p", 5, [0]⟩)
        = applyVoteRoster [] ⟨"p", 5, [0]⟩ :=
  C2_roster_invariant _
    (RosterReachable.vote [] ⟨"p", 5, [0]⟩ RosterReachable.creation)

/-- C8: ConfigOptionDef::get on a key that has never been set (no row exists
for it) returns None and raises no error: the absent value defaults to the
empty string, whose decode failure is logged and swallowed into Ok(None). -/
theorem C8_get_never_set {α : Type} (o : ConfigOptionDef α)
    (table : List (ConfigOptionRow α))
    (h : table.find? (fun r => r.name = o.key_name) = none) :
    o.get table = Except.ok none := by
  rw [ConfigOptionDef.get, h]
  rfl

theorem C8_get_never_set_witness :
    ConfigOptionDef.get (⟨"debate"⟩ : ConfigOptionDef Nat) [] = Except.ok none :=
  C8_get_never_set ⟨"debate"⟩ [] rfl

/-- C10: in the reply to a forwarded poll reference, when the non-voter list
is non-empty but no non-voter has both a cached profile and a username, the
reply text is the empty string: neither "Everyone voted!" nor any mention is
produced. -/
theorem C10_forward_reply_blank (non_voters : List (Int × Option TgUser))
    (hne : non_voters ≠ [])
    (hnou : ∀ p ∈ non_voters, ∀ u : TgUser, p.2 = some u → u.username = none) :
    hande_poll_forward_text (some non_voters) = "" := by
  have hchain : (non_voters.filterMap (fun p => p.2)).filterMap
      (fun u => u.username) = [] := by
    rw [List.filterMap_eq_nil_iff]
    intro u hu
    rcases List.mem_filterMap.mp hu with ⟨p, hp, hpu⟩
    exact hnou p hp u hpu
  rw [hande_poll_forward_text]
  rw [if_neg (by simpa using hne), hchain]
  rfl

theorem C10_forward_reply_blank_witness :
    hande_poll_forward_text
      (some [(1, none), (2, some ⟨2, none, "Bob", none⟩)]) = "" :=
  C10_forward_reply_blank _ (by decide) (by
    intro p hp u hu
    rcases List.mem_cons.mp hp with rfl | hp
    · cases hu
    · rcases List.mem_cons.mp hp with rfl | hp
      · cases hu
        rfl
      · cases hp)

/-- C4: during the relay transition, when deleting the original message
fails, intercept_new_poll requests deletion of the just-republished poll,
aborts the transition (finishing with Ok rather than propagating), and leaves
the tracked_polls table unchanged: no TrackedPoll row is created for the
republished poll's id. -/
theorem C4_delete_failure_compensates (calls : InterceptCalls)
    (msg : MessageCtx) (poll : PollObj) (db : List TrackedPollRow)
    (new_poll : SentMessage) (pid : String) (e : TgError)
    (hsend : calls.send_poll_result = Except.ok new_poll)
    (hpid : new_poll.poll_id = some pid)
    (hdel : calls.delete_message_result = Except.error e) :
    intercept_new_poll calls msg poll db =
      ([Action.send_poll msg.chat_id poll.question poll.options
          poll.is_anonymous poll.allows_multiple_answers poll.close_date
          msg.thread_id msg.reply_to_id,
        Action.delete_message msg.chat_id msg.id,
        Action.delete_message msg.chat_id new_poll.id],
       db, Except.ok ()) := by
  simp only [intercept_new_poll, hsend, hpid, hdel]

theorem C4_delete_failure_compensates_witness :
    intercept_new_poll
      ⟨Except.ok ⟨10, 100, some "p1"⟩, Except.error ⟨"no rights"⟩,
        Except.ok ⟨10, 101, none⟩⟩
      ⟨10, 50, 7, none, none⟩
      ⟨"orig", "Q?", ["a", "b"], false, false, none, 0, false,
        PollType.regular⟩
      [] =
      ([Action.send_poll 10 "Q?" ["a", "b"] false false none none none,
        Action.delete_message 10 50,
        Action.delete_message 10 100],
       [], Except.ok ()) :=
  C4_delete_failure_compensates _ _ _ _ ⟨10, 100, some "p1"⟩ "p1"
    ⟨"no rights"⟩ rfl rfl rfl

/-- C5 counterexample: on a fully successful relay run, intercept_new_poll
issues the status-report reply before its only database write, and that
single insert already carries the report's location; no tracked_polls insert
precedes the reply, so the claimed order (create first, then the reply, then
a separate store of the location) fails at this input. -/
theorem C5_counterexample :
    (intercept_new_poll
        ⟨Except.ok ⟨10, 100, some "p1"⟩, Except.ok (),
          Except.ok ⟨10, 101, none⟩⟩
        ⟨10, 50, 7, none, none⟩
        ⟨"orig", "Q?", ["a", "b"], false, false, none, 0, false,
          PollType.regular⟩
        []).1
      = [Action.send_poll 10 "Q?" ["a", "b"] false false none none none,
         Action.delete_message 10 50,
         Action.send_reply 10 100 "Poll info",
         Action.insert_tracked_poll ⟨"p1", 7, 10, 101, Blob.enc []⟩]
    ∧ ¬ ∃ i : Fin 4, ∃ j : Fin 4, (i : Nat) < (j : Nat)
        ∧ [Action.send_poll 10 "Q?" ["a", "b"] false false none none none,
           Action.delete_message 10 50,
           Action.send_reply 10 100 "Poll info",
           Action.insert_tracked_poll ⟨"p1", 7, 10, 101, Blob.enc []⟩].get i
            = Action.insert_tracked_poll ⟨"p1", 7, 10, 101, Blob.enc []⟩
        ∧ [Action.send_poll 10 "Q?" ["a", "b"] false false none none none,
           Action.delete_message 10 50,
           Action.send_reply 10 100 "Poll info",
           Action.insert_tracked_poll ⟨"p1", 7, 10, 101, Blob.enc []⟩].get j
            = Action.send_reply 10 100 "Poll info" :=
  ⟨rfl, by decide⟩

/-- C5 as amended: when deletion of the original succeeds, the relay first
sends the status-report reply threaded to the republished poll and then
performs a single Vote Ledger create — the tracked_polls insert — carrying
the republished poll's id, the original sender as creator, the report's
location as info_chat_id/info_message_id, and an empty roster; there is no
separate location-update step. -/
theorem C5_success_order (calls : InterceptCalls) (msg : MessageCtx)
    (poll : PollObj) (db : List TrackedPollRow) (new_poll : SentMessage)
    (pid : String) (poll_info : SentMessage)
    (hsend : calls.send_poll_result = Except.ok new_poll)
    (hpid : new_poll.poll_id = some pid)
    (hdel : calls.delete_message_result = Except.ok ())
    (hreply : calls.reply_message_result = Except.ok poll_info)
    (hfresh : db.any (fun r => r.tg_poll_id = pid) = false) :
    intercept_new_poll calls msg poll db =
      ([Action.send_poll msg.chat_id poll.question poll.options
          poll.is_anonymous poll.allows_multiple_answers poll.close_date
          msg.thread_id msg.reply_to_id,
        Action.delete_message msg.chat_id msg.id,
        Action.send_reply msg.chat_id new_poll.id "Poll info",
        Action.insert_tracked_poll
          ⟨pid, msg.from_id, poll_info.chat_id, poll_info.id, Blob.enc []⟩],
       db ++ [⟨pid, msg.from_id, poll_info.chat_id, poll_info.id,
         Blob.enc []⟩],
       Except.ok ()) := by
  simp only [intercept_new_poll, hsend, hpid, hdel, hreply, hfresh,
    Bool.false_eq_true, if_false]

theorem C5_success_order_witness :
    intercept_new_poll
      ⟨Except.ok ⟨10, 100, some "p1"⟩, Except.ok (),
        Except.ok ⟨10, 101, none⟩⟩
      ⟨10, 50, 7, none, none⟩
      ⟨"orig", "Q?", ["a", "b"], false, false, none, 0, false,
        PollType.regular⟩
      [] =
      ([Action.send_poll 10 "Q?" ["a", "b"] false false none none none,
        Action.delete_message 10 50,
        Action.send_reply 10 100 "Poll info",
        Action.insert_tracked_poll ⟨"p1", 7, 10, 101, Blob.enc []⟩],
       [⟨"p1", 7, 10, 101, Blob.enc []⟩], Except.ok ()) :=
  C5_success_order _ _ _ _ ⟨10, 100, some "p1"⟩ "p1" ⟨10, 101, none⟩
    rfl rfl rfl rfl rfl

/-- C6: decode failures are asymmetric: a stored voted_users roster that
fails to decode makes db_find_poll, and with it the apply_vote transaction of
handle_poll_answer, fail with a propagated deserialization error — never an
empty roster — while a stored option value that fails to decode makes
ConfigOptionDef::get swallow the failure and return Ok(None). -/
theorem C6_decode_asymmetry :
    (∀ (db : List TrackedPollRow) (residents : List Int)
        (tg_users : List TgUser) (pa : PollAnswer) (r : TrackedPollRow)
        (e : String),
        db.find? (fun row => row.tg_poll_id = pa.poll_id) = some r →
        serde_from_str r.voted_users = Except.error e →
        db_find_poll db pa.poll_id = Except.error (DbError.deserialization e)
        ∧ handle_poll_answer_tx db residents tg_users pa
            = Except.error (DbError.deserialization e))
    ∧ (∀ (α : Type) (o : ConfigOptionDef α)
        (table : List (ConfigOptionRow α)) (r : ConfigOptionRow α)
        (e : String),
        table.find? (fun row => row.name = o.key_name) = some r →
        serde_from_str r.value = Except.error e →
        o.get table = Except.ok none) := by
  constructor
  · intro db residents tg_users pa r e hfind hdec
    have h1 : db_find_poll db pa.poll_id
        = Except.error (DbError.deserialization e) := by
      simp only [db_find_poll, hfind, hdec]
    refine ⟨h1, ?_⟩
    simp only [handle_poll_answer_tx, h1]
  · intro α o table r e hfind hdec
    simp only [ConfigOptionDef.get, hfind, Option.map_some', Option.getD_some,
      hdec]

theorem C6_decode_asymmetry_witness :
    (db_find_poll [⟨"p", 7, 10, 101, Blob.malformed⟩] "p"
        = Except.error (DbError.deserialization "malformed JSON")
      ∧ handle_poll_answer_tx [⟨"p", 7, 10, 101, Blob.malformed⟩] [] []
          ⟨"p", 5, [0]⟩
        = Except.error (DbError.deserialization "malformed JSON"))
    ∧ ConfigOptionDef.get (⟨"debate"⟩ : ConfigOptionDef Nat)
        [⟨"debate", Blob.malformed⟩] = Except.ok none :=
  ⟨C6_decode_asymmetry.1 _ [] [] ⟨"p", 5, [0]⟩
      ⟨"p", 7, 10, 101, Blob.malformed⟩ "malformed JSON" rfl rfl,
   C6_decode_asymmetry.2 Nat ⟨"debate"⟩ _ ⟨"debate", Blob.malformed⟩
      "malformed JSON" rfl rfl⟩

/-- C9: for a vote-answer event on a known poll, the apply_vote transaction
rewrites only the voted_users column of the rows matching the event's poll
id: every row keeps its tg_poll_id, creator_id, info_chat_id and
info_message_id, and every row of a different poll is entirely unchanged. -/
theorem C9_frame (db : List TrackedPollRow) (residents : List Int)
    (tg_users : List TgUser) (pa : PollAnswer) (db2 : List TrackedPollRow)
    (out : Int × Int × List (Int × Option TgUser) × Nat)
    (h : handle_poll_answer_tx db residents tg_users pa
        = Except.ok (db2, some out)) :
    List.Forall₂ (fun r r2 : TrackedPollRow =>
      r2.tg_poll_id = r.tg_poll_id ∧ r2.creator_id = r.creator_id
      ∧ r2.info_chat_id = r.info_chat_id
      ∧ r2.info_message_id = r.info_message_id
      ∧ (r.tg_poll_id ≠ pa.poll_id → r2 = r)) db db2 := by
  rw [handle_poll_answer_tx] at h
  cases hfind : db_find_poll db pa.poll_id with
  | error e =>
    rw [hfind] at h
    cases h
  | ok op =>
    cases op with
    | none =>
      rw [hfind] at h
      simp at h
    | some p =>
      rw [hfind] at h
      simp only [Except.ok.injEq, Prod.mk.injEq] at h
      have hdb : db2 = db.map (fun r =>
          if r.tg_poll_id = pa.poll_id then
            { r with voted_users :=
                Blob.enc (applyVoteRoster p.voted_users pa) }
          else r) := h.1.symm
      subst hdb
      apply forall₂_map_self
      intro r
      by_cases hid : r.tg_poll_id = pa.poll_id
      · rw [if_pos hid]
        exact ⟨rfl, rfl, rfl, rfl, fun hne => absurd hid hne⟩
      · rw [if_neg hid]
        exact ⟨rfl, rfl, rfl, rfl, fun _ => rfl⟩

theorem C9_frame_witness :
    List.Forall₂ (fun r r2 : TrackedPollRow =>
      r2.tg_poll_id = r.tg_poll_id ∧ r2.creator_id = r.creator_id
      ∧ r2.info_chat_id = r.info_chat_id
      ∧ r2.info_message_id = r.info_message_id
      ∧ (r.tg_poll_id ≠ (⟨"p", 5, [0]⟩ : PollAnswer).poll_id → r2 = r))
      [⟨"p", 7, 10, 101, Blob.enc []⟩, ⟨"q", 8, 11, 102, Blob.enc [3]⟩]
      [⟨"p", 7, 10, 101, Blob.enc [5]⟩, ⟨"q", 8, 11, 102, Blob.enc [3]⟩] :=
  C9_frame [⟨"p", 7, 10, 101, Blob.enc []⟩, ⟨"q", 8, 11, 102, Blob.enc [3]⟩]
    [] [] ⟨"p", 5, [0]⟩ _ (10, 101, [], 1) rfl

/-- C3 counterexample: on the same non-empty non-voter list (one pending
voter with a public handle) and the same voter count, the reply to a
forwarded poll reference is just " @alice" — it never states the count of
voters or of pending voters — while the edited status-report message does;
the two reports differ, so the claim that both follow the count-then-mentions
rendering rule fails at this input. -/
theorem C3_counterexample :
    hande_poll_forward_text
        (some [(1, some ⟨1, some "alice", "Alice", none⟩)]) = " @alice"
    ∧ render_poll_answer_report
        [(1, some ⟨1, some "alice", "Alice", none⟩)] 1
      = "Voted 1 users, Pending vote 1 users: @alice .\n"
    ∧ hande_poll_forward_text
        (some [(1, some ⟨1, some "alice", "Alice", none⟩)])
      ≠ render_poll_answer_report
          [(1, some ⟨1, some "alice", "Alice", none⟩)] 1 := by
  refine ⟨rfl, rfl, ?_⟩
  decide

/-- C3 as amended: if the non-voter set is empty, both the reply to a
forwarded poll reference and the edited status-report message read exactly
"Everyone voted!"; otherwise the status-report message states the count of
voters and the count of pending voters and then lists a mention for each
non-voter that has a cached profile with a public handle (silently omitting
the others), while the forwarded-reference reply lists only the " @username"
mentions, without any counts. -/
theorem C3_report_rendering (non_voters : List (Int × Option TgUser))
    (total_voters : Nat) :
    (non_voters = [] →
        render_poll_answer_report non_voters total_voters = "Everyone voted!"
        ∧ hande_poll_forward_text (some non_voters) = "Everyone voted!")
    ∧ (non_voters ≠ [] →
        render_poll_answer_report non_voters total_voters
          = "Voted " ++ toString total_voters ++ " users, "
            ++ "Pending vote " ++ toString non_voters.length ++ " users: "
            ++ format_users2 "" non_voters ++ ".\n"
        ∧ hande_poll_forward_text (some non_voters)
          = ((non_voters.filterMap (fun p => p.2)).filterMap
              (fun u => u.username)).foldr
                (fun u acc => " @" ++ u ++ acc) "") := by
  constructor
  · intro h
    subst h
    exact ⟨rfl, rfl⟩
  · intro h
    have hne : ¬non_voters.isEmpty = true := by simpa using h
    constructor
    · simp only [render_poll_answer_report]
      rw [if_neg hne]
      rw [format_users2_shift non_voters
        ("Voted " ++ toString total_voters ++ " users, " ++ "Pending vote "
          ++ toString non_voters.length ++ " users: ")]
    · simp only [hande_poll_forward_text]
      rw [if_neg hne]
      rw [foldl_mention_shift _ ""]
      rw [String.empty_append]

theorem C3_report_rendering_witness :
    render_poll_answer_report
        [(1, some ⟨1, some "alice", "Alice", none⟩), (2, none)] 3
      = "Voted " ++ toString 3 ++ " users, "
        ++ "Pending vote "
        ++ toString ([(1, some ⟨1, some "alice", "Alice", none⟩),
            (2, (none : Option TgUser))] : List (Int × Option TgUser)).length
        ++ " users: "
        ++ format_users2 ""
            [(1, some ⟨1, some "alice", "Alice", none⟩), (2, none)]
        ++ ".\n"
    ∧ hande_poll_forward_text
        (some [(1, some ⟨1, some "alice", "Alice", none⟩), (2, none)])
      = (([((1 : Int), some (⟨1, some "alice", "Alice", none⟩ : TgUser)),
            (2, none)].filterMap (fun p => p.2)).filterMap
          (fun u => u.username)).foldr (fun u acc => " @" ++ u ++ acc) "" :=
  (C3_report_rendering
    [(1, some ⟨1, some "alice", "Alice", none⟩), (2, none)] 3).2 (by decide)

/-- C7 counterexample: a forwarded message carrying a poll that satisfies all
the listed eligibility conditions (zero votes, open, non-anonymous, regular)
from a sender of sufficient tier is NOT classified as a new eligible poll —
filter_polls ignores it because its forward metadata names a foreign user —
so the claimed if-and-only-if fails at this input. -/
theorem C7_counterexample :
    filter_polls 10 (fun _ => true)
        ⟨some ⟨"orig", "Q?", ["a", "b"], false, false, none, 0, false,
            PollType.regular⟩,
          some (ForwardOrigin.user 99), false, some 1⟩ = none
    ∧ (⟨"orig", "Q?", ["a", "b"], false, false, none, 0, false,
          PollType.regular⟩ : PollObj).total_voter_count = 0
    ∧ (⟨"orig", "Q?", ["a", "b"], false, false, none, 0, false,
          PollType.regular⟩ : PollObj).is_closed = false
    ∧ (⟨"orig", "Q?", ["a", "b"], false, false, none, 0, false,
          PollType.regular⟩ : PollObj).is_anonymous = false
    ∧ (⟨"orig", "Q?", ["a", "b"], false, false, none, 0, false,
          PollType.regular⟩ : PollObj).poll_type = PollType.regular
    ∧ (fun _ : Int => true) 1 = true := by
  decide

/-- C7 as amended: an incoming message is classified as a new eligible poll
exactly when it carries a poll, is not a forward, the poll has zero total
votes, is not closed, is not anonymous and is of the regular type, and the
message has a sender whose resolved authorization tier is at least
Resident. -/
theorem C7_new_poll_classification (me : Int) (is_resident : Int → Bool)
    (msg : MsgInfo) (p : PollObj) :
    filter_polls me is_resident msg = some (PollKind.new p)
      ↔ msg.poll = some p ∧ msg.forward = none
        ∧ p.total_voter_count = 0 ∧ p.is_closed = false
        ∧ p.is_anonymous = false ∧ p.poll_type = PollType.regular
        ∧ ∃ u, msg.from_user = some u ∧ is_resident u = true := by
  obtain ⟨mp, mf, priv, mu⟩ := msg
  constructor
  · intro h
    cases mp with
    | none => cases h
    | some poll =>
      cases mf with
      | none =>
        simp only [filter_polls] at h
        by_cases hc : (poll.total_voter_count = 0 && !poll.is_closed
            && !poll.is_anonymous && poll.poll_type == PollType.regular) = true
        · rw [if_pos hc] at h
          cases mu with
          | none => cases h
          | some u =>
            simp only [] at h
            by_cases hr : is_resident u = true
            · rw [if_pos hr] at h
              have hpoll : poll = p := by
                injection h with h2
                injection h2
              subst hpoll
              simp only [Bool.and_eq_true, decide_eq_true_eq,
                Bool.not_eq_true', beq_iff_eq] at hc
              exact ⟨rfl, rfl, hc.1.1.1, hc.1.1.2, hc.1.2, hc.2, u, rfl, hr⟩
            · rw [if_neg hr] at h
              cases h
        · rw [if_neg hc] at h
          cases h
      | some origin =>
        cases origin with
        | user i =>
          simp only [filter_polls] at h
          by_cases hg : (i == me && priv) = true
          · rw [if_pos hg] at h
            cases mu with
            | none => cases h
            | some u =>
              simp only [] at h
              by_cases hr : is_resident u = true
              · rw [if_pos hr] at h
                cases h
              · rw [if_neg hr] at h
                cases h
          · rw [if_neg hg] at h
            cases h
        | other => cases h
  · rintro ⟨hp, hf, h0, hcl, han, hty, u, hu, hr⟩
    subst hp
    subst hf
    subst hu
    simp only [filter_polls]
    rw [if_pos (by simp [h0, hcl, han, hty]), if_pos hr]

theorem C7_new_poll_classification_witness :
    filter_polls 10 (fun _ => true)
        ⟨some ⟨"orig", "Q?", ["a", "b"], false, false, none, 0, false,
            PollType.regular⟩,
          none, false, some 1⟩
      = some (PollKind.new ⟨"orig", "Q?", ["a", "b"], false, false, none, 0,
          false, PollType.regular⟩) :=
  (C7_new_poll_classification 10 (fun _ => true) _ _).mpr
    ⟨rfl, rfl, rfl, rfl, rfl, rfl, 1, rfl, rfl⟩

end Botka
